import Mathlib

/-!
Verification development for the `pusha` static-site build-and-deploy tool
(`src/lib.rs`). The Rust code is shallowly embedded:

* Relative filesystem paths are embedded as lists of normal components
  (`List String`); `PathBuf::join` on a relative right operand is list append,
  `Path::parent` of a non-empty relative path drops the last component and is
  `none` only for the empty path (in Rust, `Path::new("file.ext").parent()`
  is `Some("")`, and only `Path::new("").parent()` is `None`).
* The fallible external world (curl, the filesystem, the renderer, S3,
  CloudFront, git) is embedded as a record of oracle functions (`World`);
  each pipeline step returns the list of observable calls it made
  (`Event`) together with either a value or the `Panic` that aborted the
  process, mirroring the pervasive `unwrap`/`expect`/`panic!` style of the
  source. A panic aborts the whole command, so a failed computation carries
  the events performed before the abort and nothing after it.
-/

/-! ## Path model: `Path::file_stem` / `set_extension` / `with_extension` -/

/-- Embedding of Rust std's `rsplit_file_at_dot` on a file name: split at the
last `.`; a name of `..`, a name with no `.`, or a name whose only `.` is its
first character (such as `.gitignore`) has no extension. Returns
(file stem, extension). -/
def rsplitDot (f : String) : String × Option String :=
  if f = ".." then (f, none)
  else
    let rev := f.toList.reverse
    if rev.contains '.' then
      let afterRev := rev.takeWhile (fun c => c != '.')
      let beforeRev := (rev.dropWhile (fun c => c != '.')).tail
      if beforeRev = [] then (f, none)
      else (String.mk beforeRev.reverse, some (String.mk afterRev.reverse))
    else (f, none)

/-- `Path::file_stem` of a file name. -/
def fileStem (f : String) : String := (rsplitDot f).fst

/-- `PathBuf::set_extension` applied to a file name: replace (or append) the
extension, keeping the stem. -/
def setFileExtension (f : String) (ext : String) : String :=
  if ext = "" then fileStem f else fileStem f ++ "." ++ ext

/-- `PathBuf::with_extension` on a component-list path: rewrites the extension
of the final component. A path with no file name (the empty path, or a path
ending in `..`) is returned unchanged, as Rust's `set_extension` returns
`false` there. -/
def withExtensionList : List String → String → List String
  | [], _ => []
  | [f], e => if f = ".." then [f] else [setFileExtension f e]
  | f :: g :: rest, e => f :: withExtensionList (g :: rest) e

/-- The optional-extension wrapper used by `pop_parent_replace_ext`:
`None` leaves the path alone, `Some ext` applies `with_extension`. -/
def withExtensionOpt (p : List String) : Option String → List String
  | none => p
  | some e => withExtensionList p e

/-- Embedding of `pop_parent_replace_ext` (src/lib.rs:107-121): if
`path.parent()` is `Some` (every non-empty relative path), pop the front
component and strip it as a prefix; then apply the optional extension
rewrite. -/
def pop_parent_replace_ext (path : List String) (maybe_ext : Option String) :
    List String :=
  withExtensionOpt (if path = [] then path else path.tail) maybe_ext

/-- `Path::file_name` of a relative component-list path: its last component. -/
def fileName : List String → Option String
  | [] => none
  | [f] => some f
  | _ :: g :: rest => fileName (g :: rest)

/-- `Path::extension`: the extension of the file name. -/
def pathExt (p : List String) : Option String :=
  match fileName p with
  | none => none
  | some f => (rsplitDot f).snd

/-- The markdown test used to partition collected content files
(src/lib.rs:311): `path.extension().map(|ext| ext == "md").unwrap_or_default()`. -/
def isMd (p : List String) : Bool := pathExt p == some "md"

/-- `Path::display`/`to_str` on a relative component-list path. -/
def pathToString (p : List String) : String := String.intercalate "/" p

/-! ## Data model -/

/-- Embedding of `Environment` (src/lib.rs:38-43). -/
inductive Environment
  | Local
  | Staging
  | Production
  deriving DecidableEq

/-- The `Display` implementation for `Environment` (src/lib.rs:45-53),
used to name the persisted manifest file `"{environment}.yaml"`. -/
def envName : Environment → String
  | Environment.Local => "local"
  | Environment.Staging => "staging"
  | Environment.Production => "production"

/-- Embedding of `PageSource` (src/lib.rs:124-127). -/
inductive PageSource
  | Remote (url : String)
  | Local (path : List String)
  deriving DecidableEq

/-- `PageSource::as_str` (src/lib.rs:130-135). -/
def PageSource.as_str : PageSource → String
  | PageSource.Remote s => s
  | PageSource.Local p => pathToString p

/-- Embedding of `ExternalPage` (src/lib.rs:138-144). -/
structure ExternalPage where
  source_url : PageSource
  local_path : List String
  deriving DecidableEq

/-- Embedding of `ManifestFile` (src/lib.rs:171-177); `chrono` timestamps are
embedded as opaque integers. -/
structure ManifestFile where
  origin : String
  origin_modified : Int
  built_filepath : List String
  destination : List String
  deriving DecidableEq

/-- The `files: BTreeMap<String, ManifestFile>` of `SiteManifest`
(src/lib.rs:183), embedded as an association list kept sorted by key; the
sorted order models the `BTreeMap` key-ordered iteration used by `deploy`. -/
abbrev Files := List (String × ManifestFile)

/-- Lexicographic order on code-point lists; on UTF-8 strings this agrees
with Rust's byte-wise `Ord for String`, the order of `BTreeMap` keys. -/
def charListLt : List Char → List Char → Bool
  | [], [] => false
  | [], _ :: _ => true
  | _ :: _, [] => false
  | a :: as1, b :: bs1 =>
    if a.val < b.val then true
    else if a.val = b.val then charListLt as1 bs1
    else false

/-- Rust's `Ord for String` (strict less-than). -/
def strLt (a b : String) : Bool := charListLt a.toList b.toList

/-- `BTreeMap::insert`: upsert keeping keys sorted and unique. -/
def insertSorted (k : String) (v : ManifestFile) : Files → Files
  | [] => [(k, v)]
  | (k', v') :: rest =>
    if strLt k k' then (k, v) :: (k', v') :: rest
    else if k = k' then (k, v) :: rest
    else (k', v') :: insertSorted k v rest

/-- Embedding of `SiteConfig` (src/lib.rs:147-157): the three per-environment
configuration tables. -/
structure SiteConfig where
  root_url : Environment → String
  cloudfront_distro : Environment → Option String
  s3_bucket : Environment → Option String

/-- The identity part of a `SiteManifest` (src/lib.rs:180-183): its
environment and build directory. The `files` map is threaded separately. -/
structure Ctx where
  env : Environment
  buildDir : List String

/-! ## Trace semantics for the effectful pipelines

Every externally observable call the pipelines make is an `Event`; every
`unwrap`/`expect`/`panic!` that can fire is a `Panic`. A pipeline step
denotes a `TraceResult`: the events it performed, and either its value or
the panic that aborted the process (keeping the events performed before
the abort). -/

/-- Observable calls of the build/deploy pipelines. -/
inductive Event
  | removeDirAll (p : List String)
  | createDirAll (p : List String)
  | curlFetch (url : String)
  | curlHead (url : String)
  | fsRead (p : List String)
  | renderCall (classes : String)
  | fsWrite (p : List String)
  | saveManifest (file : String)
  | s3Put (bucket key contentType : String)
  | cfInvalidate (distro : String) (paths : List String) (ref : String)
  deriving DecidableEq

/-- The panics/expects the pipelines can die with. -/
inductive Panic
  | curlFailed
  | readFailed
  | renderFailed
  | writeFailed
  | contentDirMissing
  | saveFailed
  | envError
  | bodyFailed
  | s3UploadFailed
  | gitHashFailed
  | distroUnwrapFailed
  | cloudfrontFailed
  deriving DecidableEq

/-- Result of an effectful step: events performed, then value or abort. -/
def TraceResult (α : Type) : Type := List Event × Except Panic α

/-- Pure step: no events. -/
def tpure {α : Type} (a : α) : TraceResult α := ([], Except.ok a)

/-- Abort (a Rust panic): no further events. -/
def tfail {α : Type} (p : Panic) : TraceResult α := ([], Except.error p)

/-- Perform one observable call. -/
def temit (e : Event) : TraceResult Unit := ([e], Except.ok ())

/-- Sequencing: an abort discards the continuation. -/
def tbind {α β : Type} (x : TraceResult α) (f : α → TraceResult β) :
    TraceResult β :=
  match x with
  | (es, Except.error p) => (es, Except.error p)
  | (es, Except.ok a) => (es ++ (f a).fst, (f a).snd)

/-- The oracles describing the external world a run interacts with: the
network, the filesystem, the injected `Renderer`, AWS and git. `none` /
`false` mean the corresponding Rust call fails (and the surrounding
`unwrap`/`expect` panics). -/
structure World where
  /-- `self.build_directory.is_dir()` at the start of `clean`. -/
  buildDirIsDir : Bool
  /-- body of `curl <url>` as UTF-8, if the command and decoding succeed. -/
  fetchBody : String → Option String
  /-- headers of `curl --head <url>`, already split at `:` per line into
  key/value pairs (the `lines().filter_map(split_once(':'))` step). -/
  fetchHead : String → Option (List (String × String))
  /-- `chrono::DateTime::parse_from_rfc2822`. -/
  parseDate : String → Option Int
  /-- `chrono::Utc::now()`. -/
  now : Int
  /-- open + `metadata().modified()` + read of a file: content and mtime. -/
  readFile : List String → Option (String × Int)
  /-- whether `std::fs::write` to this path succeeds. -/
  writeOk : List String → Bool
  /-- the injected `Renderer::render_content` (content, extra_classes). -/
  render : String → String → Option String
  /-- the files collected by `get_files("content")`; `none` means the
  content directory is missing or not a directory (a panic). -/
  contentFiles : Option (List (List String))
  /-- `new_mime_guess::from_path(..).first_or_octet_stream()`. -/
  mime : List String → String
  /-- whether `ByteStream::from_path` on this path succeeds. -/
  bodyOk : List String → Bool
  /-- whether the S3 `put_object` call for this key succeeds. -/
  uploadOk : String → Bool
  /-- `git rev-parse HEAD` output as UTF-8, if it succeeds. -/
  gitHash : Option String
  /-- whether the CloudFront `create_invalidation` call succeeds. -/
  invalidateOk : Bool
  /-- whether the `fs::write` of the manifest YAML succeeds. -/
  saveOk : Bool

/-! ## The pipelines (src/lib.rs:186-499), in trace semantics -/

/-- `SiteManifest::clean` (src/lib.rs:201-210) as a trace: conditionally
`remove_dir_all`, then `create_dir_all`, then reset `files` to empty. The
two `unwrap`s are modelled as succeeding (no claim concerns their failure). -/
def cleanT (w : World) (ctx : Ctx) : TraceResult Files :=
  tbind (if w.buildDirIsDir then temit (Event.removeDirAll ctx.buildDir)
         else tpure ()) fun _ =>
  tbind (temit (Event.createDirAll ctx.buildDir)) fun _ =>
  tpure []

/-- The `PageSource::Remote` arm of `build_external` (src/lib.rs:219-260):
curl the body, curl the headers, look up the `date` header in the collected
`HashMap` (last occurrence wins) and parse it as RFC 2822, falling back to
`Utc::now()` when the header is absent or unparseable. Only the two curl
invocations (and UTF-8 decoding) can panic. -/
def resolveRemote (w : World) (url : String) : TraceResult (String × Int) :=
  tbind (temit (Event.curlFetch url)) fun _ =>
  match w.fetchBody url with
  | none => tfail Panic.curlFailed
  | some content =>
    tbind (temit (Event.curlHead url)) fun _ =>
    match w.fetchHead url with
    | none => tfail Panic.curlFailed
    | some headers =>
      let origin_modified :=
        match (headers.reverse.find? (fun kv => kv.fst == "date")).map
            (fun kv => kv.snd) with
        | none => w.now
        | some d =>
          match w.parseDate d with
          | none => w.now
          | some t => t
      tpure (content, origin_modified)

/-- The `PageSource::Local` arm of `build_external` (src/lib.rs:261-270):
open the file, take its modification time, read it to a string. -/
def resolveLocal (w : World) (p : List String) : TraceResult (String × Int) :=
  tbind (temit (Event.fsRead p)) fun _ =>
  match w.readFile p with
  | none => tfail Panic.readFailed
  | some ct => tpure ct

/-- `if let Some(parent) = built_filepath.parent() { create_dir_all(parent) }`:
a non-empty relative path has parent `dropLast`; the empty path has none. -/
def createParentT (p : List String) : TraceResult Unit :=
  match p with
  | [] => tpure ()
  | _ :: _ => temit (Event.createDirAll p.dropLast)

/-- The shared render-write-record tail of `build_external` and of the
markdown arm of `build` (src/lib.rs:273-290 and 330-346): render the content
with the given extra classes, create the parent directories, write the page,
and upsert the manifest entry. -/
def renderWriteInsert (w : World) (files : Files) (origin : String)
    (origin_modified : Int) (content : String) (classes : String)
    (built : List String) (dest : List String) : TraceResult Files :=
  tbind (temit (Event.renderCall classes)) fun _ =>
  match w.render content classes with
  | none => tfail Panic.renderFailed
  | some _ =>
    tbind (createParentT built) fun _ =>
    tbind (temit (Event.fsWrite built)) fun _ =>
    if w.writeOk built then
      tpure (insertSorted origin ⟨origin, origin_modified, built, dest⟩ files)
    else tfail Panic.writeFailed

/-- `SiteManifest::build_external` (src/lib.rs:212-291): resolve the page
source, render it with the `"devlog"` class tag, write it under
`build_directory.join(local_path)` and record it keyed by
`source_url.as_str()`. -/
def build_external (w : World) (ctx : Ctx) (files : Files)
    (page : ExternalPage) : TraceResult Files :=
  let built := ctx.buildDir ++ page.local_path
  tbind (match page.source_url with
         | PageSource.Remote url => resolveRemote w url
         | PageSource.Local p => resolveLocal w p) fun ct =>
  renderWriteInsert w files (PageSource.as_str page.source_url) ct.snd ct.fst
    "devlog" built page.local_path

/-- The markdown-file arm of `build` (src/lib.rs:313-347): destination via
`pop_parent_replace_ext(file, Some("html"))`, read, render with empty extra
classes, write, record keyed by the file path string. -/
def buildMarkdownFile (w : World) (ctx : Ctx) (files : Files)
    (file : List String) : TraceResult Files :=
  let destination := pop_parent_replace_ext file (some "html")
  let built := ctx.buildDir ++ destination
  tbind (temit (Event.fsRead file)) fun _ =>
  match w.readFile file with
  | none => tfail Panic.readFailed
  | some ct =>
    renderWriteInsert w files (pathToString file) ct.snd ct.fst "" built
      destination

/-- The verbatim-copy arm of `build` (src/lib.rs:349-379): destination via
`pop_parent_replace_ext(file, None)`, parent directories created before the
read, bytes copied verbatim, recorded keyed by the file path string. -/
def buildOtherFile (w : World) (ctx : Ctx) (files : Files)
    (file : List String) : TraceResult Files :=
  let destination := pop_parent_replace_ext file none
  let built := ctx.buildDir ++ destination
  tbind (createParentT built) fun _ =>
  tbind (temit (Event.fsRead file)) fun _ =>
  match w.readFile file with
  | none => tfail Panic.readFailed
  | some ct =>
    tbind (temit (Event.fsWrite built)) fun _ =>
    if w.writeOk built then
      tpure (insertSorted (pathToString file)
        ⟨pathToString file, ct.snd, built, destination⟩ files)
    else tfail Panic.writeFailed

/-- Left fold of an effectful step over a list, aborting at the first panic
(the `for` loops of `build`). -/
def foldT {σ α : Type} (f : σ → α → TraceResult σ) :
    σ → List α → TraceResult σ
  | s, [] => tpure s
  | s, x :: xs => tbind (f s x) fun s1 => foldT f s1 xs

/-- The manifest save event: `fs::write("{environment}.yaml", yaml)`
(src/lib.rs:381-384). -/
def saveEv (ctx : Ctx) : Event :=
  Event.saveManifest (envName ctx.env ++ ".yaml")

/-- `SiteManifest::build` (src/lib.rs:293-385): clean, build each external
page, collect and partition the content files by the `md` extension, process
markdown then other files, and finally persist the manifest. `get_files` is
embedded through the `contentFiles` oracle (`none` = the `content` directory
is missing, which panics before any file is processed). -/
def build (w : World) (ctx : Ctx) (external_pages : List ExternalPage) :
    TraceResult Files :=
  tbind (cleanT w ctx) fun files0 =>
  tbind (foldT (build_external w ctx) files0 external_pages) fun files1 =>
  match w.contentFiles with
  | none => tfail Panic.contentDirMissing
  | some allFiles =>
    tbind (foldT (buildMarkdownFile w ctx) files1
      (allFiles.filter (fun p => isMd p))) fun files2 =>
    tbind (foldT (buildOtherFile w ctx) files2
      (allFiles.filter (fun p => !(isMd p)))) fun files3 =>
    tbind (temit (saveEv ctx)) fun _ =>
    if w.saveOk then tpure files3 else tfail Panic.saveFailed

/-- `SiteManifest::upload` (src/lib.rs:388-422): panic if the environment has
no bucket configured, guess the content type, stream the file body, and issue
one `put_object` (panicking if it fails). The bucket check happens before any
network call. -/
def upload (w : World) (cfg : SiteConfig) (env : Environment)
    (path : List String) (key : String) : TraceResult Unit :=
  match cfg.s3_bucket env with
  | none => tfail Panic.envError
  | some bucket =>
    if w.bodyOk path then
      tbind (temit (Event.s3Put bucket key (w.mime path))) fun _ =>
      if w.uploadOk key then tpure () else tfail Panic.s3UploadFailed
    else tfail Panic.bodyFailed

/-- The upload loop of `deploy` (src/lib.rs:451-454): one `upload` per
manifest entry, in `BTreeMap` key order, key = `destination.display()`. -/
def uploadAll (w : World) (cfg : SiteConfig) (env : Environment) :
    Files → TraceResult Unit
  | [] => tpure ()
  | (_, mf) :: rest =>
    tbind (upload w cfg env mf.built_filepath (pathToString mf.destination))
      fun _ => uploadAll w cfg env rest

/-- `SiteManifest::deploy` (src/lib.rs:424-499): run the full `build`, upload
every manifest entry, read the git revision (`expect`), unwrap the CloudFront
distribution id, and issue one invalidation naming `/{destination}` for every
entry with caller reference `xtask-{hash}`. Note the code checks neither the
bucket nor the distribution before building: the bucket is checked inside
each `upload`, and the distribution only at the final `unwrap`. -/
def deploy (w : World) (cfg : SiteConfig) (ctx : Ctx)
    (external_pages : List ExternalPage) : TraceResult Files :=
  tbind (build w ctx external_pages) fun files =>
  tbind (uploadAll w cfg ctx.env files) fun _ =>
  match w.gitHash with
  | none => tfail Panic.gitHashFailed
  | some hash =>
    match cfg.cloudfront_distro ctx.env with
    | none => tfail Panic.distroUnwrapFailed
    | some distro =>
      tbind (temit (Event.cfInvalidate distro
        (files.map (fun kv => "/" ++ pathToString kv.snd.destination))
        ("xtask-" ++ hash))) fun _ =>
      if w.invalidateOk then tpure files else tfail Panic.cloudfrontFailed

/-- Rust's `char::is_whitespace` (the Unicode `White_Space` property), which
`str::split_whitespace` splits on. -/
def rustIsWhitespace (c : Char) : Bool :=
  c = ' ' || c = '\t' || c = '\n' || c.val = 0x0B || c.val = 0x0C ||
  c = '\r' || c.val = 0x85 || c.val = 0xA0 || c.val = 0x1680 ||
  (0x2000 ≤ c.val && c.val ≤ 0x200A) || c.val = 0x2028 || c.val = 0x2029 ||
  c.val = 0x202F || c.val = 0x205F || c.val = 0x3000

/-- The default-key synthesis of the `upload` subcommand (src/lib.rs:520-530):
`filename.replace(" ", "_")` followed by
`split_whitespace().collect::<Vec<_>>().concat()`, which deletes every
remaining whitespace character. -/
def sanitize_filename (s : String) : String :=
  String.mk (((s.toList.map (fun c => if c = ' ' then '_' else c)).filter
    (fun c => !(rustIsWhitespace c))))

/-- The key chosen by the `Upload` arm of `run` (src/lib.rs:519-531):
the explicit key if given, else `"uploads/" ++ sanitized file name`
(`none` when `path.file_name()` is `None`, where the code would panic). -/
def chosenUploadKey (path : List String) (explicit : Option String) :
    Option String :=
  match explicit with
  | some k => some k
  | none => (fileName path).map (fun f => "uploads/" ++ sanitize_filename f)

/-! ## Filesystem-state model of `clean`

The trace semantics above does not track filesystem contents, so `clean`
(src/lib.rs:201-210) is additionally given a state semantics over an
abstract filesystem: a map from paths to `some true` (directory),
`some false` (regular file) or `none` (absent). -/

/-- Abstract filesystem: what exists at each path. -/
def Fs : Type := List String → Option Bool

/-- `std::fs::remove_dir_all(bd)` (successful run): everything at or under
`bd` disappears. -/
def removeDirAllFs (bd : List String) (fs : Fs) : Fs :=
  fun p => if bd.isPrefixOf p then none else fs p

/-- `std::fs::create_dir_all(bd)` (successful run): `bd` and all its
ancestors become directories. -/
def createDirAllFs (bd : List String) (fs : Fs) : Fs :=
  fun p => if p.isPrefixOf bd then some true else fs p

/-- The state `clean` acts on: the filesystem and the manifest `files` map. -/
structure CleanState where
  fs : Fs
  files : Files

/-- `SiteManifest::clean` (src/lib.rs:201-210) as a state transformer: if the
build directory is a directory, remove its whole tree; recreate it; reset
`files` to empty. The two `unwrap`s are modelled as succeeding. -/
def clean (bd : List String) (s : CleanState) : CleanState :=
  let fs1 := if s.fs bd = some true then removeDirAllFs bd s.fs else s.fs
  ⟨createDirAllFs bd fs1, []⟩

/-- Well-formedness of an abstract filesystem: every proper ancestor of an
existing path is a directory (true of any real filesystem). -/
def FsWF (fs : Fs) : Prop :=
  ∀ p q : List String, p.isPrefixOf q = true → p ≠ q → fs q ≠ none →
    fs p = some true

deriving instance DecidableEq for Except

/-! ## Concrete worlds used by witnesses and counterexamples -/

/-- An all-succeeding world with two content files (one markdown page and
one asset) and a remote head answering without a usable `date` header.
Field order: buildDirIsDir, fetchBody, fetchHead, parseDate, now, readFile,
writeOk, render, contentFiles, mime, bodyOk, uploadOk, gitHash,
invalidateOk, saveOk. -/
def wOk : World :=
  ⟨false,
   fun _ => some "remote-body",
   fun _ => some [("content-type", "text/html")],
   fun _ => none,
   11,
   fun _ => some ("file-content", 5),
   fun _ => true,
   fun _ _ => some "rendered",
   some [["content", "a.md"], ["content", "img", "logo.png"]],
   fun _ => "text/html",
   fun _ => true,
   fun _ => true,
   some "abc",
   true,
   true⟩

/-- The manifest identity of a run: Local environment, `site` directory. -/
def ctxLocal : Ctx := ⟨Environment.Local, ["site"]⟩

/-- A `SiteConfig` like the Local row of the real tables: no bucket, no
CloudFront distribution. -/
def cfgLocal : SiteConfig := ⟨fun _ => "http://localhost", fun _ => none, fun _ => none⟩

/-- A `SiteConfig` with a bucket and a distribution for every environment. -/
def cfgFull : SiteConfig :=
  ⟨fun _ => "https://example.com", fun _ => some "DISTRO", fun _ => some "bucket"⟩

/-- A `SiteConfig` with a bucket but no CloudFront distribution. -/
def cfgNoDistro : SiteConfig :=
  ⟨fun _ => "https://example.com", fun _ => none, fun _ => some "bucket"⟩

/-! ## Claim about the remote date fallback (C8) -/

/-- The `date` header the code extracts from `curl --head` output
(src/lib.rs:239-243): last `date` entry of the collected `HashMap`. -/
def dateHeader (headers : List (String × String)) : Option String :=
  (headers.reverse.find? (fun kv => kv.fst == "date")).map (fun kv => kv.snd)

/-! ## Event classification -/

/-- Is this event the manifest save? -/
def isSaveEvent : Event → Bool
  | Event.saveManifest _ => true
  | _ => false

/-- Is this event an S3 `put_object` call? -/
def isPut : Event → Bool
  | Event.s3Put _ _ _ => true
  | _ => false

/-- Is this event a CloudFront invalidation call? -/
def isInvalidate : Event → Bool
  | Event.cfInvalidate _ _ _ => true
  | _ => false

/-- Events emitted while producing artifacts: everything except the manifest
save and the two deploy-phase network calls. -/
def artifactEvent : Event → Bool
  | Event.saveManifest _ => false
  | Event.s3Put _ _ _ => false
  | Event.cfInvalidate _ _ _ => false
  | _ => true

/-- Did this step abort the process (a Rust panic)? -/
def aborted {α : Type} : Except Panic α → Bool
  | Except.error _ => true
  | Except.ok _ => false

/-- A world identical to `wOk` except that the renderer always fails. -/
def wRenderFail : World :=
  ⟨false,
   fun _ => some "remote-body",
   fun _ => some [("content-type", "text/html")],
   fun _ => none,
   11,
   fun _ => some ("file-content", 5),
   fun _ => true,
   fun _ _ => none,
   some [["content", "a.md"], ["content", "img", "logo.png"]],
   fun _ => "text/html",
   fun _ => true,
   fun _ => true,
   some "abc",
   true,
   true⟩

/-! ## The upload loop of deploy -/

/-- The `put_object` calls the upload loop performs before stopping, given
the bucket `b`: one per entry in key order, stopping at the first entry whose
body streaming or S3 call fails (a failed S3 call is still an attempted
`put_object`; a failed body stream never reaches S3). -/
def uploadsAttempted (w : World) (b : String) : Files → List Event
  | [] => []
  | (_, mf) :: rest =>
    if w.bodyOk mf.built_filepath then
      if w.uploadOk (pathToString mf.destination) then
        Event.s3Put b (pathToString mf.destination)
            (w.mime mf.built_filepath) ::
          uploadsAttempted w b rest
      else [Event.s3Put b (pathToString mf.destination)
        (w.mime mf.built_filepath)]
    else []

/-- A world identical to `wOk` except that every S3 upload fails. -/
def wUploadFail : World :=
  ⟨false,
   fun _ => some "remote-body",
   fun _ => some [("content-type", "text/html")],
   fun _ => none,
   11,
   fun _ => some ("file-content", 5),
   fun _ => true,
   fun _ _ => some "rendered",
   some [["content", "a.md"], ["content", "img", "logo.png"]],
   fun _ => "text/html",
   fun _ => true,
   fun _ => false,
   some "abc",
   true,
   true⟩

/-! ## Theorems -/

@[simp] theorem tbind_err {α β : Type} (es : List Event) (p : Panic)
    (f : α → TraceResult β) :
    tbind (es, Except.error p) f = (es, Except.error p) := rfl

@[simp] theorem tbind_ok {α β : Type} (es : List Event) (a : α)
    (f : α → TraceResult β) :
    tbind (es, Except.ok a) f = (es ++ (f a).fst, (f a).snd) := rfl

@[simp] theorem tpure_def {α : Type} (a : α) : tpure a = ([], Except.ok a) := rfl

@[simp] theorem tfail_def {α : Type} (p : Panic) :
    (tfail p : TraceResult α) = ([], Except.error p) := rfl

@[simp] theorem temit_def (e : Event) : temit e = ([e], Except.ok ()) := rfl

theorem isPrefixOf_self (l : List String) : l.isPrefixOf l = true := by
  simp [List.isPrefixOf_iff_prefix]

theorem isPrefixOf_antisymm {l₁ l₂ : List String}
    (h₁ : l₁.isPrefixOf l₂ = true) (h₂ : l₂.isPrefixOf l₁ = true) :
    l₁ = l₂ := by
  rw [List.isPrefixOf_iff_prefix] at h₁ h₂
  exact h₁.eq_of_length_le h₂.length_le

/-! ## Generic lemmas about the trace semantics -/

theorem tbind_snd {α β : Type} (x : TraceResult α) (f : α → TraceResult β) :
    (tbind x f).snd =
      match x.snd with
      | Except.error p => Except.error p
      | Except.ok a => (f a).snd := by
  obtain ⟨es, r⟩ := x
  cases r <;> rfl

@[simp] theorem createParentT_snd (p : List String) :
    (createParentT p).snd = Except.ok () := by
  cases p <;> rfl

/-! ## Claims about path mapping (C2, C3) -/

/-- C2 is false on the code: a single-segment path such as `"file.ext"` does
have a parent in Rust (`Path::new("file.ext").parent()` is `Some("")`), so
`pop_parent_replace_ext` strips its only segment and returns the empty path
rather than the path unchanged. -/
theorem C2_counterexample :
    pop_parent_replace_ext ["file.ext"] none = [] ∧
    pop_parent_replace_ext ["file.ext"] none ≠ ["file.ext"] := by
  decide

/-- C2 (amended): a single-segment path is stripped down to the empty path
(with any requested extension rewrite then a no-op, since the empty path has
no file name); only the empty input, the one relative path whose `parent()`
is `None`, is returned unchanged. -/
theorem C2_single_segment_amended :
    (∀ (s : String) (mext : Option String),
      pop_parent_replace_ext [s] mext = []) ∧
    (∀ mext : Option String, pop_parent_replace_ext [] mext = []) := by
  refine ⟨fun s mext => ?_, fun mext => ?_⟩ <;>
    cases mext <;>
      simp [pop_parent_replace_ext, withExtensionOpt, withExtensionList]

/-- C3: on a relative path with at least one parent segment (that is, at
least two components), `pop_parent_replace_ext` strips exactly the first
segment and applies the optional extension rewrite to the rest; in
particular `pop_parent_replace_ext("parent/child/file.ext", Some("xyz"))`
is `"child/file.xyz"`. -/
theorem C3_strips_first_segment (a b : String) (rest : List String)
    (mext : Option String) :
    pop_parent_replace_ext (a :: b :: rest) mext =
      withExtensionOpt (b :: rest) mext ∧
    pop_parent_replace_ext ["parent", "child", "file.ext"] (some "xyz") =
      ["child", "file.xyz"] := by
  exact ⟨by simp [pop_parent_replace_ext], by decide⟩

/-! ## Claim about the default upload key (C9) -/

/-- C9: the `upload` subcommand invoked without an explicit key synthesizes
`"uploads/<sanitized file name>"`, where sanitization replaces spaces by
underscores and deletes any remaining whitespace; in particular
`"My File.png"` sanitizes to `"My_File.png"`. -/
theorem C9_default_upload_key (path : List String) (f : String)
    (h : fileName path = some f) :
    chosenUploadKey path none = some ("uploads/" ++ sanitize_filename f) ∧
    sanitize_filename "My File.png" = "My_File.png" := by
  exact ⟨by simp [chosenUploadKey, h], by decide⟩

/-- Witness for C9: a file named `"My File.png"` yields key
`"uploads/My_File.png"`. -/
theorem C9_default_upload_key_witness :
    chosenUploadKey ["My File.png"] none = some "uploads/My_File.png" := by
  have h := C9_default_upload_key ["My File.png"] "My File.png" rfl
  exact h.1.trans (by decide)

/-- C8: resolving a remote external page whose headers omit a `date` field,
or carry one that fails RFC-2822 parsing, does not fail: `build_external`
succeeds and records the entry with `origin_modified` equal to the current
time (`Utc::now()`). -/
theorem C8_date_fallback (w : World) (ctx : Ctx) (files : Files)
    (url : String) (lp : List String) (body : String)
    (headers : List (String × String)) (out : String)
    (hbody : w.fetchBody url = some body)
    (hhead : w.fetchHead url = some headers)
    (hdate : dateHeader headers = none ∨
      ∃ d, dateHeader headers = some d ∧ w.parseDate d = none)
    (hrender : w.render body "devlog" = some out)
    (hwrite : w.writeOk (ctx.buildDir ++ lp) = true) :
    (build_external w ctx files ⟨PageSource.Remote url, lp⟩).snd =
      Except.ok (insertSorted url ⟨url, w.now, ctx.buildDir ++ lp, lp⟩ files) := by
  have hrw : ∀ t : Int,
      (renderWriteInsert w files (PageSource.as_str (PageSource.Remote url)) t
        body "devlog" (ctx.buildDir ++ lp) lp).snd =
      Except.ok (insertSorted url ⟨url, t, ctx.buildDir ++ lp, lp⟩ files) := by
    intro t
    simp [renderWriteInsert, tbind_snd, hrender, PageSource.as_str, hwrite]
  rcases hdate with hnone | ⟨d, hd, hp⟩
  · simp only [build_external, resolveRemote, temit, tbind_ok, hbody, hhead,
      tbind_snd]
    rw [show (headers.reverse.find? (fun kv => kv.fst == "date")).map
      (fun kv => kv.snd) = none from hnone]
    simpa using hrw w.now
  · simp only [build_external, resolveRemote, temit, tbind_ok, hbody, hhead,
      tbind_snd]
    rw [show (headers.reverse.find? (fun kv => kv.fst == "date")).map
      (fun kv => kv.snd) = some d from hd]
    simpa [hp] using hrw w.now

/-- Witness for C8: a concrete remote page whose head response carries no
`date` header resolves with `origin_modified = now` (= 11 in `wOk`). -/
theorem C8_date_fallback_witness :
    (build_external wOk ctxLocal [] ⟨PageSource.Remote "http://x", ["devlog", "index.html"]⟩).snd =
      Except.ok [("http://x", ⟨"http://x", 11, ["site", "devlog", "index.html"],
        ["devlog", "index.html"]⟩)] := by
  have h := C8_date_fallback wOk ctxLocal [] "http://x" ["devlog", "index.html"]
    "remote-body" [("content-type", "text/html")] "rendered" rfl rfl
    (Or.inl (by decide)) rfl rfl
  exact h.trans (by decide)

/-! ## Claim about clean idempotence (C6) -/

theorem clean_fs_strict_under (bd : List String) (s : CleanState)
    (hwf : FsWF s.fs) (p : List String) (hpre : bd.isPrefixOf p = true)
    (hne : p ≠ bd) : (clean bd s).fs p = none := by
  have hnp : ¬ p.isPrefixOf bd = true := by
    intro hp
    exact hne (isPrefixOf_antisymm hp hpre)
  show createDirAllFs bd _ p = none
  unfold createDirAllFs
  rw [if_neg hnp]
  by_cases hdir : s.fs bd = some true
  · simp only [hdir, if_pos, removeDirAllFs, hpre, if_true]
  · rw [if_neg hdir]
    by_contra hsome
    exact hdir (hwf bd p hpre (fun h => hne h.symm) hsome)

theorem clean_fs_at_dir (bd : List String) (s : CleanState) :
    (clean bd s).fs bd = some true := by
  show createDirAllFs bd _ bd = some true
  unfold createDirAllFs
  rw [if_pos (isPrefixOf_self bd)]

/-- C6: `clean` is idempotent — running it twice from any well-formed state
gives exactly the state running it once gives — and after a `clean` the
output directory exists, nothing else exists underneath it, and the
manifest's `files` map is empty. -/
theorem C6_clean_idempotent (bd : List String) (s : CleanState)
    (hwf : FsWF s.fs) :
    clean bd (clean bd s) = clean bd s ∧
    (clean bd s).fs bd = some true ∧
    (∀ p, bd.isPrefixOf p = true → p ≠ bd → (clean bd s).fs p = none) ∧
    (clean bd s).files = [] := by
  refine ⟨?_, clean_fs_at_dir bd s, clean_fs_strict_under bd s hwf, rfl⟩
  have hdir : (clean bd s).fs bd = some true := clean_fs_at_dir bd s
  have hfs : (clean bd (clean bd s)).fs = (clean bd s).fs := by
    funext p
    show createDirAllFs bd
      (if (clean bd s).fs bd = some true then removeDirAllFs bd (clean bd s).fs
       else (clean bd s).fs) p = (clean bd s).fs p
    rw [if_pos hdir]
    by_cases hp : p.isPrefixOf bd = true
    · have : (clean bd s).fs p = some true := by
        show createDirAllFs bd _ p = some true
        unfold createDirAllFs
        rw [if_pos hp]
      unfold createDirAllFs
      rw [if_pos hp, this]
    · unfold createDirAllFs removeDirAllFs
      rw [if_neg hp]
      by_cases hq : bd.isPrefixOf p = true
      · have hne : p ≠ bd := by
          intro h
          exact hp (h ▸ isPrefixOf_self bd)
        rw [if_pos hq, clean_fs_strict_under bd s hwf p hq hne]
      · rw [if_neg hq]
  have hfiles : (clean bd (clean bd s)).files = (clean bd s).files := rfl
  have heta : clean bd (clean bd s) =
      CleanState.mk (clean bd (clean bd s)).fs (clean bd (clean bd s)).files :=
    rfl
  rw [heta, hfs, hfiles]

/-- Witness for C6: from the empty filesystem (trivially well-formed),
cleaning once or twice gives the same state, the `site` directory exists and
is empty, and the `files` map is empty. -/
theorem C6_clean_idempotent_witness :
    clean ["site"] (clean ["site"] ⟨fun _ => none, []⟩) =
      clean ["site"] ⟨fun _ => none, []⟩ ∧
    (clean ["site"] ⟨fun _ => none, []⟩).fs ["site"] = some true ∧
    (clean ["site"] ⟨fun _ => none, []⟩).fs ["site", "x"] = none ∧
    (clean ["site"] ⟨fun _ => none, []⟩).files = [] := by
  have hwf : FsWF (fun _ => none) := fun p q _ _ hq => absurd rfl hq
  have h := C6_clean_idempotent ["site"] ⟨fun _ => none, []⟩ hwf
  exact ⟨h.1, h.2.1, h.2.2.1 ["site", "x"] (by decide) (by decide), h.2.2.2⟩

theorem artifact_all_tbind {α β : Type} {x : TraceResult α}
    {f : α → TraceResult β}
    (hx : ∀ e ∈ x.fst, artifactEvent e = true)
    (hf : ∀ a, ∀ e ∈ (f a).fst, artifactEvent e = true) :
    ∀ e ∈ (tbind x f).fst, artifactEvent e = true := by
  obtain ⟨es, r⟩ := x
  cases r with
  | error p => simpa [tbind] using hx
  | ok a =>
    intro e he
    rw [tbind_ok] at he
    rcases List.mem_append.1 he with h | h
    · exact hx e h
    · exact hf a e h

theorem artifact_all_foldT {σ α : Type} {f : σ → α → TraceResult σ}
    (hf : ∀ s a, ∀ e ∈ (f s a).fst, artifactEvent e = true) :
    ∀ (l : List α) (s : σ), ∀ e ∈ (foldT f s l).fst,
      artifactEvent e = true := by
  intro l
  induction l with
  | nil => intro s e he; simp [foldT, tpure] at he
  | cons x xs ih => exact fun s => artifact_all_tbind (hf s x) (fun s1 => ih s1)

theorem artifact_all_cleanT (w : World) (ctx : Ctx) :
    ∀ e ∈ (cleanT w ctx).fst, artifactEvent e = true := by
  cases hb : w.buildDirIsDir <;>
    simp [cleanT, hb, tbind, temit, tpure, artifactEvent]

theorem artifact_all_createParentT (p : List String) :
    ∀ e ∈ (createParentT p).fst, artifactEvent e = true := by
  cases p <;> simp [createParentT, temit, tpure, artifactEvent]

theorem artifact_all_resolveRemote (w : World) (url : String) :
    ∀ e ∈ (resolveRemote w url).fst, artifactEvent e = true := by
  rcases hb : w.fetchBody url with _ | body <;>
    rcases hh : w.fetchHead url with _ | hs <;>
      simp [resolveRemote, hb, hh, tbind, temit, tpure, tfail, artifactEvent]

theorem artifact_all_resolveLocal (w : World) (p : List String) :
    ∀ e ∈ (resolveLocal w p).fst, artifactEvent e = true := by
  rcases hr : w.readFile p with _ | ct <;>
    simp [resolveLocal, hr, tbind, temit, tpure, tfail, artifactEvent]

theorem artifact_all_renderWriteInsert (w : World) (files : Files)
    (origin : String) (tmod : Int) (content : String) (classes : String)
    (built dest : List String) :
    ∀ e ∈ (renderWriteInsert w files origin tmod content classes
      built dest).fst, artifactEvent e = true := by
  refine artifact_all_tbind (by simp [temit, artifactEvent]) (fun _ => ?_)
  rcases hr : w.render content classes with _ | out
  · simp [hr, tfail]
  · refine artifact_all_tbind (artifact_all_createParentT built) (fun _ => ?_)
    refine artifact_all_tbind (by simp [temit, artifactEvent]) (fun _ => ?_)
    cases hw : w.writeOk built <;> simp [hw, tpure, tfail]

theorem artifact_all_build_external (w : World) (ctx : Ctx) (files : Files)
    (page : ExternalPage) :
    ∀ e ∈ (build_external w ctx files page).fst, artifactEvent e = true := by
  refine artifact_all_tbind ?_ (fun ct => artifact_all_renderWriteInsert w
    files (PageSource.as_str page.source_url) ct.snd ct.fst "devlog"
    (ctx.buildDir ++ page.local_path) page.local_path)
  cases page.source_url with
  | Remote url => exact artifact_all_resolveRemote w url
  | Local p => exact artifact_all_resolveLocal w p

theorem artifact_all_buildMarkdownFile (w : World) (ctx : Ctx) (files : Files)
    (file : List String) :
    ∀ e ∈ (buildMarkdownFile w ctx files file).fst, artifactEvent e = true := by
  refine artifact_all_tbind (by simp [temit, artifactEvent]) (fun _ => ?_)
  rcases hr : w.readFile file with _ | ct
  · simp [hr, tfail]
  · exact artifact_all_renderWriteInsert w files (pathToString file) ct.snd
      ct.fst "" (ctx.buildDir ++ pop_parent_replace_ext file (some "html"))
      (pop_parent_replace_ext file (some "html"))

theorem artifact_all_buildOtherFile (w : World) (ctx : Ctx) (files : Files)
    (file : List String) :
    ∀ e ∈ (buildOtherFile w ctx files file).fst, artifactEvent e = true := by
  refine artifact_all_tbind (artifact_all_createParentT _) (fun _ => ?_)
  refine artifact_all_tbind (by simp [temit, artifactEvent]) (fun _ => ?_)
  rcases hr : w.readFile file with _ | ct
  · simp [hr, tfail]
  · refine artifact_all_tbind (by simp [temit, artifactEvent]) (fun _ => ?_)
    cases hw : w.writeOk (ctx.buildDir ++ pop_parent_replace_ext file none) <;>
      simp [hw, tpure, tfail]

/-! ## Value-level helper lemmas -/

@[simp] theorem tbind_temit_snd {β : Type} (e : Event) (f : Unit → TraceResult β) :
    (tbind (temit e) f).snd = (f ()).snd := rfl

@[simp] theorem tbind_createParentT_snd {β : Type} (p : List String)
    (f : Unit → TraceResult β) :
    (tbind (createParentT p) f).snd = (f ()).snd := by
  cases p <;> rfl

theorem mem_insertSorted {k : String} {v : ManifestFile} {l : Files}
    {x : String × ManifestFile} (hx : x ∈ insertSorted k v l) :
    x = (k, v) ∨ x ∈ l := by
  induction l with
  | nil => simpa [insertSorted] using hx
  | cons kv rest ih =>
    obtain ⟨k', v'⟩ := kv
    simp only [insertSorted] at hx
    by_cases h1 : strLt k k' = true
    · rw [if_pos h1] at hx
      simp only [List.mem_cons] at hx ⊢
      tauto
    · rw [if_neg h1] at hx
      by_cases h2 : k = k'
      · rw [if_pos h2] at hx
        simp only [List.mem_cons] at hx ⊢
        tauto
      · rw [if_neg h2] at hx
        simp only [List.mem_cons] at hx ⊢
        rcases hx with hx | hx
        · tauto
        · rcases ih hx with hx | hx <;> tauto

theorem foldT_inv {σ α : Type} (f : σ → α → TraceResult σ) (P : σ → Prop)
    (hstep : ∀ s a s', (f s a).snd = Except.ok s' → P s → P s') :
    ∀ (l : List α) (s s' : σ), (foldT f s l).snd = Except.ok s' → P s → P s' := by
  intro l
  induction l with
  | nil =>
    intro s s' h hP
    simp only [foldT, tpure] at h
    cases h
    exact hP
  | cons x xs ih =>
    intro s s' h hP
    simp only [foldT] at h
    rw [tbind_snd] at h
    rcases hr : (f s x).snd with p | s1 <;> rw [hr] at h
    · exact Except.noConfusion h
    · exact ih s1 s' h (hstep s x s1 hr hP)

theorem renderWriteInsert_ok_elim {w : World} {files : Files}
    {origin : String} {tmod : Int} {content classes : String}
    {built dest : List String} {fs' : Files}
    (h : (renderWriteInsert w files origin tmod content classes
      built dest).snd = Except.ok fs') :
    fs' = insertSorted origin ⟨origin, tmod, built, dest⟩ files := by
  unfold renderWriteInsert at h
  rw [tbind_temit_snd] at h
  rcases hr : w.render content classes with _ | out <;> rw [hr] at h
  · exact Except.noConfusion h
  · rw [tbind_createParentT_snd, tbind_temit_snd] at h
    cases hw : w.writeOk built <;> rw [hw] at h <;> simp [tpure, tfail] at h
    exact h.symm

theorem build_external_ok_elim {w : World} {ctx : Ctx} {files : Files}
    {page : ExternalPage} {fs' : Files}
    (h : (build_external w ctx files page).snd = Except.ok fs') :
    ∃ t : Int, fs' = insertSorted (PageSource.as_str page.source_url)
      ⟨PageSource.as_str page.source_url, t, ctx.buildDir ++ page.local_path,
        page.local_path⟩ files := by
  unfold build_external at h
  rw [tbind_snd] at h
  cases hsrc : page.source_url with
  | Remote url =>
    rw [hsrc] at h
    rcases hres : (resolveRemote w url).snd with p | ct <;> rw [hres] at h
    · exact Except.noConfusion h
    · have h2 : (renderWriteInsert w files
          (PageSource.as_str (PageSource.Remote url)) ct.snd ct.fst "devlog"
          (ctx.buildDir ++ page.local_path) page.local_path).snd =
          Except.ok fs' := h
      exact ⟨ct.snd, renderWriteInsert_ok_elim h2⟩
  | Local lp =>
    rw [hsrc] at h
    rcases hres : (resolveLocal w lp).snd with p | ct <;> rw [hres] at h
    · exact Except.noConfusion h
    · have h2 : (renderWriteInsert w files
          (PageSource.as_str (PageSource.Local lp)) ct.snd ct.fst "devlog"
          (ctx.buildDir ++ page.local_path) page.local_path).snd =
          Except.ok fs' := h
      exact ⟨ct.snd, renderWriteInsert_ok_elim h2⟩

theorem buildMarkdownFile_ok_elim {w : World} {ctx : Ctx} {files : Files}
    {file : List String} {fs' : Files}
    (h : (buildMarkdownFile w ctx files file).snd = Except.ok fs') :
    ∃ t : Int, fs' = insertSorted (pathToString file)
      ⟨pathToString file, t,
        ctx.buildDir ++ pop_parent_replace_ext file (some "html"),
        pop_parent_replace_ext file (some "html")⟩ files := by
  unfold buildMarkdownFile at h
  rw [tbind_temit_snd] at h
  rcases hr : w.readFile file with _ | ct <;> rw [hr] at h
  · exact Except.noConfusion h
  · exact ⟨ct.snd, renderWriteInsert_ok_elim h⟩

theorem buildOtherFile_ok_elim {w : World} {ctx : Ctx} {files : Files}
    {file : List String} {fs' : Files}
    (h : (buildOtherFile w ctx files file).snd = Except.ok fs') :
    ∃ t : Int, fs' = insertSorted (pathToString file)
      ⟨pathToString file, t, ctx.buildDir ++ pop_parent_replace_ext file none,
        pop_parent_replace_ext file none⟩ files := by
  unfold buildOtherFile at h
  rw [tbind_createParentT_snd, tbind_temit_snd] at h
  rcases hr : w.readFile file with _ | ct <;> rw [hr] at h
  · exact Except.noConfusion h
  · rw [tbind_temit_snd] at h
    cases hw : w.writeOk (ctx.buildDir ++ pop_parent_replace_ext file none) <;>
      rw [hw] at h <;> simp [tpure, tfail] at h
    exact ⟨ct.snd, h.symm⟩

/-! ## Destructuring the build pipeline -/

theorem tbind_snd_ok {α β : Type} {x : TraceResult α} {a : α}
    (hx : x.snd = Except.ok a) (f : α → TraceResult β) :
    (tbind x f).snd = (f a).snd := by
  obtain ⟨es, r⟩ := x
  cases r with
  | error p => exact Except.noConfusion hx
  | ok b => cases hx; rfl

theorem tbind_snd_err {α β : Type} {x : TraceResult α} {p : Panic}
    (hx : x.snd = Except.error p) (f : α → TraceResult β) :
    (tbind x f).snd = Except.error p := by
  obtain ⟨es, r⟩ := x
  cases r with
  | error q => cases hx; rfl
  | ok b => exact Except.noConfusion hx

theorem tbind_fst_ok {α β : Type} {x : TraceResult α} {a : α}
    (hx : x.snd = Except.ok a) (f : α → TraceResult β) :
    (tbind x f).fst = x.fst ++ (f a).fst := by
  obtain ⟨es, r⟩ := x
  cases r with
  | error p => exact Except.noConfusion hx
  | ok b => cases hx; rfl

theorem tbind_fst_err {α β : Type} {x : TraceResult α} {p : Panic}
    (hx : x.snd = Except.error p) (f : α → TraceResult β) :
    (tbind x f).fst = x.fst := by
  obtain ⟨es, r⟩ := x
  cases r with
  | error q => rfl
  | ok b => exact Except.noConfusion hx

theorem cleanT_snd (w : World) (ctx : Ctx) :
    (cleanT w ctx).snd = Except.ok [] := by
  cases hb : w.buildDirIsDir <;> simp [cleanT, hb, tbind, temit, tpure]

theorem tbind_snd_ok_elim {α β : Type} {x : TraceResult α}
    {f : α → TraceResult β} {b : β}
    (h : (tbind x f).snd = Except.ok b) :
    ∃ a, x.snd = Except.ok a ∧ (f a).snd = Except.ok b := by
  obtain ⟨es, r⟩ := x
  cases r with
  | error p => exact Except.noConfusion h
  | ok a => exact ⟨a, rfl, h⟩

theorem build_ok_full (w : World) (ctx : Ctx) (pages : List ExternalPage)
    (fs3 : Files) (h : (build w ctx pages).snd = Except.ok fs3) :
    ∃ f1 cf f2,
      (foldT (build_external w ctx) [] pages).snd = Except.ok f1 ∧
      w.contentFiles = some cf ∧
      (foldT (buildMarkdownFile w ctx) f1
        (cf.filter (fun p => isMd p))).snd = Except.ok f2 ∧
      (foldT (buildOtherFile w ctx) f2
        (cf.filter (fun p => !(isMd p)))).snd = Except.ok fs3 ∧
      w.saveOk = true ∧
      (build w ctx pages).fst =
        ((cleanT w ctx).fst ++
          ((foldT (build_external w ctx) [] pages).fst ++
            ((foldT (buildMarkdownFile w ctx) f1
                (cf.filter (fun p => isMd p))).fst ++
              (foldT (buildOtherFile w ctx) f2
                (cf.filter (fun p => !(isMd p)))).fst))) ++ [saveEv ctx] := by
  have hts : (temit (saveEv ctx)).snd = Except.ok () := rfl
  unfold build at h
  rw [tbind_snd_ok (cleanT_snd w ctx)] at h
  obtain ⟨f1, hr1, h⟩ := tbind_snd_ok_elim h
  rcases hcf : w.contentFiles with _ | cf
  · simp only [hcf, tfail] at h
    exact Except.noConfusion h
  · simp only [hcf] at h
    obtain ⟨f2, hr2, h⟩ := tbind_snd_ok_elim h
    obtain ⟨f3, hr3, h⟩ := tbind_snd_ok_elim h
    obtain ⟨u, hu, h⟩ := tbind_snd_ok_elim h
    cases hs : w.saveOk
    · rw [hs] at h
      simp only [Bool.false_eq_true, if_false, tfail] at h
      exact Except.noConfusion h
    · rw [hs] at h
      simp only [if_true, tpure] at h
      have hval : f3 = fs3 := Except.ok.inj h
      subst hval
      refine ⟨f1, cf, f2, hr1, rfl, hr2, hr3, rfl, ?_⟩
      unfold build
      rw [tbind_fst_ok (cleanT_snd w ctx)]
      simp only [tbind_fst_ok hr1, hcf, tbind_fst_ok hr2, tbind_fst_ok hr3,
        tbind_fst_ok hts, temit, hs, if_true, tpure]
      simp [List.append_assoc]

theorem build_err_artifact (w : World) (ctx : Ctx) (pages : List ExternalPage)
    (p : Panic) (h : (build w ctx pages).snd = Except.error p)
    (hp : p ≠ Panic.saveFailed) :
    ∀ e ∈ (build w ctx pages).fst, artifactEvent e = true := by
  have hcl := artifact_all_cleanT w ctx
  have hext := artifact_all_foldT
    (fun s a => artifact_all_build_external w ctx s a) pages ([] : Files)
  unfold build at h ⊢
  simp only [tbind_snd_ok (cleanT_snd w ctx)] at h
  simp only [tbind_fst_ok (cleanT_snd w ctx)]
  rcases hr1 : (foldT (build_external w ctx) [] pages).snd with q | f1
  · simp only [tbind_fst_err hr1]
    intro e he
    rcases List.mem_append.1 he with he | he
    · exact hcl e he
    · exact hext e he
  · simp only [tbind_snd_ok hr1] at h
    simp only [tbind_fst_ok hr1]
    rcases hcf : w.contentFiles with _ | cf
    · simp only [hcf, tfail] at h ⊢
      intro e he
      simp only [List.append_nil] at he
      rcases List.mem_append.1 he with he | he
      · exact hcl e he
      · exact hext e he
    · simp only [hcf] at h ⊢
      have hmd := artifact_all_foldT
        (fun s a => artifact_all_buildMarkdownFile w ctx s a)
        (cf.filter (fun p => isMd p)) f1
      rcases hr2 : (foldT (buildMarkdownFile w ctx) f1
        (cf.filter (fun p => isMd p))).snd with q | f2
      · simp only [tbind_fst_err hr2]
        intro e he
        rcases List.mem_append.1 he with he | he
        · exact hcl e he
        rcases List.mem_append.1 he with he | he
        · exact hext e he
        · exact hmd e he
      · simp only [tbind_snd_ok hr2] at h
        simp only [tbind_fst_ok hr2]
        have hoth := artifact_all_foldT
          (fun s a => artifact_all_buildOtherFile w ctx s a)
          (cf.filter (fun p => !(isMd p))) f2
        rcases hr3 : (foldT (buildOtherFile w ctx) f2
          (cf.filter (fun p => !(isMd p)))).snd with q | f3
        · simp only [tbind_fst_err hr3]
          intro e he
          rcases List.mem_append.1 he with he | he
          · exact hcl e he
          rcases List.mem_append.1 he with he | he
          · exact hext e he
          rcases List.mem_append.1 he with he | he
          · exact hmd e he
          · exact hoth e he
        · simp only [tbind_snd_ok hr3] at h
          have hts : (temit (saveEv ctx)).snd = Except.ok () := rfl
          simp only [tbind_snd_ok hts] at h
          cases hs : w.saveOk
          · simp only [hs, Bool.false_eq_true, if_false, tfail] at h
            exact absurd (Except.error.inj h).symm hp
          · simp only [hs, if_true, tpure] at h
            exact Except.noConfusion h

theorem artifact_not_save {e : Event} (h : artifactEvent e = true) :
    isSaveEvent e = false := by
  cases e <;> simp_all [artifactEvent, isSaveEvent]

/-! ## Claims about the build pipeline (C5, C7) -/

/-- C5: the persisted manifest is written only after all artifacts of the
build have been produced and recorded — on a successful build the manifest
save is exactly the last event, and no save happens earlier; and if any
artifact step fails (any panic other than the failure of the manifest write
itself, i.e. any fetch, read, render, write or traversal failure), the build
aborts with no manifest write at all. -/
theorem C5_manifest_saved_last (w : World) (ctx : Ctx)
    (pages : List ExternalPage) :
    (∀ p : Panic, (build w ctx pages).snd = Except.error p →
      p ≠ Panic.saveFailed →
      (build w ctx pages).fst.filter (fun e => isSaveEvent e) = []) ∧
    (∀ fs : Files, (build w ctx pages).snd = Except.ok fs →
      (build w ctx pages).fst.getLast? = some (saveEv ctx) ∧
      (build w ctx pages).fst.dropLast.filter (fun e => isSaveEvent e) = []) := by
  constructor
  · intro p hERR hpn
    refine List.filter_eq_nil_iff.2 ?_
    intro e he
    simp [artifact_not_save (build_err_artifact w ctx pages p hERR hpn e he)]
  · intro fs hOK
    obtain ⟨f1, cf, f2, hr1, hcf, hr2, hr3, hs, hfst⟩ :=
      build_ok_full w ctx pages fs hOK
    constructor
    · rw [hfst]
      exact List.getLast?_concat _
    · rw [hfst, List.dropLast_concat]
      refine List.filter_eq_nil_iff.2 ?_
      intro e he
      have hart : artifactEvent e = true := by
        rcases List.mem_append.1 he with he | he
        · exact artifact_all_cleanT w ctx e he
        rcases List.mem_append.1 he with he | he
        · exact artifact_all_foldT
            (fun s a => artifact_all_build_external w ctx s a) pages [] e he
        rcases List.mem_append.1 he with he | he
        · exact artifact_all_foldT
            (fun s a => artifact_all_buildMarkdownFile w ctx s a) _ f1 e he
        · exact artifact_all_foldT
            (fun s a => artifact_all_buildOtherFile w ctx s a) _ f2 e he
      simp [artifact_not_save hart]

/-- C7: after any successful build, every entry of the manifest's files map
satisfies `built_filepath = build_directory.join(destination)`. -/
theorem C7_built_filepath_join (w : World) (ctx : Ctx)
    (pages : List ExternalPage) (fs : Files)
    (h : (build w ctx pages).snd = Except.ok fs) :
    ∀ kv ∈ fs, kv.snd.built_filepath = ctx.buildDir ++ kv.snd.destination := by
  obtain ⟨f1, cf, f2, hr1, hcf, hr2, hr3, hs, hfst⟩ :=
    build_ok_full w ctx pages fs h
  have hstep_ext : ∀ (s : Files) (a : ExternalPage) (s' : Files),
      (build_external w ctx s a).snd = Except.ok s' →
      (∀ kv ∈ s, kv.snd.built_filepath = ctx.buildDir ++ kv.snd.destination) →
      ∀ kv ∈ s', kv.snd.built_filepath = ctx.buildDir ++ kv.snd.destination := by
    intro s a s' hok hP kv hkv
    obtain ⟨t, hfs'⟩ := build_external_ok_elim hok
    subst hfs'
    rcases mem_insertSorted hkv with hkv | hkv
    · subst hkv
      rfl
    · exact hP kv hkv
  have hstep_md : ∀ (s : Files) (a : List String) (s' : Files),
      (buildMarkdownFile w ctx s a).snd = Except.ok s' →
      (∀ kv ∈ s, kv.snd.built_filepath = ctx.buildDir ++ kv.snd.destination) →
      ∀ kv ∈ s', kv.snd.built_filepath = ctx.buildDir ++ kv.snd.destination := by
    intro s a s' hok hP kv hkv
    obtain ⟨t, hfs'⟩ := buildMarkdownFile_ok_elim hok
    subst hfs'
    rcases mem_insertSorted hkv with hkv | hkv
    · subst hkv
      rfl
    · exact hP kv hkv
  have hstep_oth : ∀ (s : Files) (a : List String) (s' : Files),
      (buildOtherFile w ctx s a).snd = Except.ok s' →
      (∀ kv ∈ s, kv.snd.built_filepath = ctx.buildDir ++ kv.snd.destination) →
      ∀ kv ∈ s', kv.snd.built_filepath = ctx.buildDir ++ kv.snd.destination := by
    intro s a s' hok hP kv hkv
    obtain ⟨t, hfs'⟩ := buildOtherFile_ok_elim hok
    subst hfs'
    rcases mem_insertSorted hkv with hkv | hkv
    · subst hkv
      rfl
    · exact hP kv hkv
  have h1 := foldT_inv (build_external w ctx) _ hstep_ext pages [] f1 hr1
    (by simp)
  have h2 := foldT_inv (buildMarkdownFile w ctx) _ hstep_md
    (cf.filter (fun p => isMd p)) f1 f2 hr2 h1
  exact foldT_inv (buildOtherFile w ctx) _ hstep_oth
    (cf.filter (fun p => !(isMd p))) f2 fs hr3 h2

/-- Witness for C5: a failing render aborts the build with no manifest save
in its trace, and the successful build in `wOk` saves last. -/
theorem C5_manifest_saved_last_witness :
    (build wRenderFail ctxLocal []).fst.filter (fun e => isSaveEvent e) = [] ∧
    (build wOk ctxLocal []).fst.getLast? = some (saveEv ctxLocal) ∧
    (build wOk ctxLocal []).fst.dropLast.filter
      (fun e => isSaveEvent e) = [] := by
  have h1 := (C5_manifest_saved_last wRenderFail ctxLocal []).1
    Panic.renderFailed (by decide) (by decide)
  have h2 := (C5_manifest_saved_last wOk ctxLocal []).2
    [("content/a.md", ⟨"content/a.md", 5, ["site", "a.html"], ["a.html"]⟩),
     ("content/img/logo.png", ⟨"content/img/logo.png", 5,
       ["site", "img", "logo.png"], ["img", "logo.png"]⟩)] (by decide)
  exact ⟨h1, h2.1, h2.2⟩

/-- Witness for C7: the markdown entry of the `wOk` build satisfies the join
invariant. -/
theorem C7_built_filepath_join_witness :
    (ManifestFile.mk "content/a.md" 5 ["site", "a.html"]
      ["a.html"]).built_filepath = ["site"] ++ ["a.html"] := by
  exact C7_built_filepath_join wOk ctxLocal []
    [("content/a.md", ⟨"content/a.md", 5, ["site", "a.html"], ["a.html"]⟩),
     ("content/img/logo.png", ⟨"content/img/logo.png", 5,
       ["site", "img", "logo.png"], ["img", "logo.png"]⟩)]
    (by decide)
    ("content/a.md", ⟨"content/a.md", 5, ["site", "a.html"], ["a.html"]⟩)
    (by decide)

theorem upload_none {w : World} {cfg : SiteConfig} {env : Environment}
    (path : List String) (key : String) (hb : cfg.s3_bucket env = none) :
    upload w cfg env path key = ([], Except.error Panic.envError) := by
  simp [upload, hb, tfail]

theorem upload_some_eq {w : World} {cfg : SiteConfig} {env : Environment}
    (path : List String) (key : String) {b : String}
    (hb : cfg.s3_bucket env = some b) :
    upload w cfg env path key =
      if w.bodyOk path then
        ([Event.s3Put b key (w.mime path)],
          if w.uploadOk key then Except.ok ()
          else Except.error Panic.s3UploadFailed)
      else ([], Except.error Panic.bodyFailed) := by
  cases hbo : w.bodyOk path <;> cases hu : w.uploadOk key <;>
    simp [upload, hb, hbo, hu, tbind, temit, tpure, tfail]

theorem uploadAll_none_eq (w : World) (cfg : SiteConfig) (env : Environment)
    (hb : cfg.s3_bucket env = none) : ∀ fs : Files,
    uploadAll w cfg env fs =
      ([], match fs with
        | [] => Except.ok ()
        | _ :: _ => Except.error Panic.envError)
  | [] => rfl
  | (k, mf) :: rest => by
    simp [uploadAll, upload_none _ _ hb, tbind]

theorem uploadAll_fst_some (w : World) (cfg : SiteConfig) (env : Environment)
    (b : String) (hb : cfg.s3_bucket env = some b) : ∀ fs : Files,
    (uploadAll w cfg env fs).fst = uploadsAttempted w b fs
  | [] => rfl
  | (k, mf) :: rest => by
    simp only [uploadAll, uploadsAttempted]
    rw [upload_some_eq mf.built_filepath (pathToString mf.destination) hb]
    cases hbo : w.bodyOk mf.built_filepath <;>
      cases hu : w.uploadOk (pathToString mf.destination) <;>
        simp [hbo, hu, tbind, uploadAll_fst_some w cfg env b hb rest]

theorem uploadAll_err_some (w : World) (cfg : SiteConfig) (env : Environment)
    (b : String) (hb : cfg.s3_bucket env = some b) : ∀ fs : Files,
    (∃ kv ∈ fs, w.uploadOk (pathToString kv.snd.destination) = false) →
    ∃ p, (uploadAll w cfg env fs).snd = Except.error p
  | [], h => by simp at h
  | (k, mf) :: rest, h => by
    simp only [uploadAll]
    rw [upload_some_eq mf.built_filepath (pathToString mf.destination) hb]
    cases hbo : w.bodyOk mf.built_filepath
    · exact ⟨Panic.bodyFailed, by simp [tbind]⟩
    · cases hu : w.uploadOk (pathToString mf.destination)
      · exact ⟨Panic.s3UploadFailed, by simp [tbind]⟩
      · simp only [if_true, tbind_ok]
        obtain ⟨kv, hmem, hfail⟩ := h
        rcases List.mem_cons.1 hmem with hkv | hkv
        · exfalso
          rw [hkv] at hfail
          rw [hfail] at hu
          exact Bool.noConfusion hu
        · exact uploadAll_err_some w cfg env b hb rest ⟨kv, hkv, hfail⟩

theorem uploadAll_ok_some (w : World) (cfg : SiteConfig) (env : Environment)
    (b : String) (hb : cfg.s3_bucket env = some b) : ∀ fs : Files,
    (∀ kv ∈ fs, w.bodyOk kv.snd.built_filepath = true ∧
      w.uploadOk (pathToString kv.snd.destination) = true) →
    uploadAll w cfg env fs =
      (fs.map (fun kv => Event.s3Put b (pathToString kv.snd.destination)
        (w.mime kv.snd.built_filepath)), Except.ok ())
  | [], _ => rfl
  | (k, mf) :: rest, h => by
    have hk := h (k, mf) (List.mem_cons_self _ _)
    simp only [uploadAll]
    rw [upload_some_eq mf.built_filepath (pathToString mf.destination) hb]
    rw [hk.1, hk.2]
    simp only [if_true, tbind_ok]
    rw [uploadAll_ok_some w cfg env b hb rest
      (fun kv hkv => h kv (List.mem_cons_of_mem _ hkv))]
    simp

theorem uploadsAttempted_filter_put (w : World) (b : String) : ∀ fs : Files,
    (uploadsAttempted w b fs).filter (fun e => isPut e) =
      uploadsAttempted w b fs
  | [] => rfl
  | (k, mf) :: rest => by
    simp only [uploadsAttempted]
    cases hbo : w.bodyOk mf.built_filepath
    · simp
    · cases hu : w.uploadOk (pathToString mf.destination)
      · simp [isPut]
      · simp only [if_true, List.filter_cons]
        have hput : isPut (Event.s3Put b (pathToString mf.destination)
          (w.mime mf.built_filepath)) = true := rfl
        simp only [hput, if_true]
        rw [uploadsAttempted_filter_put w b rest]

theorem uploadsAttempted_filter_invalidate (w : World) (b : String) :
    ∀ fs : Files,
    (uploadsAttempted w b fs).filter (fun e => isInvalidate e) = []
  | [] => rfl
  | (k, mf) :: rest => by
    simp only [uploadsAttempted]
    cases hbo : w.bodyOk mf.built_filepath
    · simp
    · cases hu : w.uploadOk (pathToString mf.destination)
      · simp [isInvalidate]
      · simp only [if_true, List.filter_cons]
        have hni : isInvalidate (Event.s3Put b (pathToString mf.destination)
          (w.mime mf.built_filepath)) = false := rfl
        simp only [hni, Bool.false_eq_true, if_false]
        rw [uploadsAttempted_filter_invalidate w b rest]

/-! ## Classifying every build event -/

theorem build_events_classified (w : World) (ctx : Ctx)
    (pages : List ExternalPage) :
    ∀ e ∈ (build w ctx pages).fst, artifactEvent e = true ∨ e = saveEv ctx := by
  have hcl := artifact_all_cleanT w ctx
  have hext := artifact_all_foldT
    (fun s a => artifact_all_build_external w ctx s a) pages ([] : Files)
  unfold build
  simp only [tbind_fst_ok (cleanT_snd w ctx)]
  rcases hr1 : (foldT (build_external w ctx) [] pages).snd with q | f1
  · simp only [tbind_fst_err hr1]
    intro e he
    rcases List.mem_append.1 he with he | he
    · exact Or.inl (hcl e he)
    · exact Or.inl (hext e he)
  · simp only [tbind_fst_ok hr1]
    rcases hcf : w.contentFiles with _ | cf
    · simp only [hcf, tfail]
      intro e he
      simp only [List.append_nil] at he
      rcases List.mem_append.1 he with he | he
      · exact Or.inl (hcl e he)
      · exact Or.inl (hext e he)
    · simp only [hcf]
      have hmd := artifact_all_foldT
        (fun s a => artifact_all_buildMarkdownFile w ctx s a)
        (cf.filter (fun p => isMd p)) f1
      rcases hr2 : (foldT (buildMarkdownFile w ctx) f1
        (cf.filter (fun p => isMd p))).snd with q | f2
      · simp only [tbind_fst_err hr2]
        intro e he
        rcases List.mem_append.1 he with he | he
        · exact Or.inl (hcl e he)
        rcases List.mem_append.1 he with he | he
        · exact Or.inl (hext e he)
        · exact Or.inl (hmd e he)
      · simp only [tbind_fst_ok hr2]
        have hoth := artifact_all_foldT
          (fun s a => artifact_all_buildOtherFile w ctx s a)
          (cf.filter (fun p => !(isMd p))) f2
        rcases hr3 : (foldT (buildOtherFile w ctx) f2
          (cf.filter (fun p => !(isMd p)))).snd with q | f3
        · simp only [tbind_fst_err hr3]
          intro e he
          rcases List.mem_append.1 he with he | he
          · exact Or.inl (hcl e he)
          rcases List.mem_append.1 he with he | he
          · exact Or.inl (hext e he)
          rcases List.mem_append.1 he with he | he
          · exact Or.inl (hmd e he)
          · exact Or.inl (hoth e he)
        · simp only [tbind_fst_ok hr3]
          have hts : (temit (saveEv ctx)).snd = Except.ok () := rfl
          simp only [tbind_fst_ok hts, temit]
          intro e he
          rcases List.mem_append.1 he with he | he
          · exact Or.inl (hcl e he)
          rcases List.mem_append.1 he with he | he
          · exact Or.inl (hext e he)
          rcases List.mem_append.1 he with he | he
          · exact Or.inl (hmd e he)
          rcases List.mem_append.1 he with he | he
          · exact Or.inl (hoth e he)
          · rcases List.mem_append.1 he with he | he
            · right
              simpa using he
            · exfalso
              cases hs : w.saveOk <;> rw [hs] at he <;>
                simp [tpure, tfail] at he

theorem artifact_not_put {e : Event} (h : artifactEvent e = true) :
    isPut e = false := by
  cases e <;> simp_all [artifactEvent, isPut]

theorem artifact_not_invalidate {e : Event} (h : artifactEvent e = true) :
    isInvalidate e = false := by
  cases e <;> simp_all [artifactEvent, isInvalidate]

theorem build_no_put (w : World) (ctx : Ctx) (pages : List ExternalPage) :
    (build w ctx pages).fst.filter (fun e => isPut e) = [] := by
  refine List.filter_eq_nil_iff.2 ?_
  intro e he
  rcases build_events_classified w ctx pages e he with h | h
  · simp [artifact_not_put h]
  · subst h
    simp [saveEv, isPut]

theorem build_no_invalidate (w : World) (ctx : Ctx)
    (pages : List ExternalPage) :
    (build w ctx pages).fst.filter (fun e => isInvalidate e) = [] := by
  refine List.filter_eq_nil_iff.2 ?_
  intro e he
  rcases build_events_classified w ctx pages e he with h | h
  · simp [artifact_not_invalidate h]
  · subst h
    simp [saveEv, isInvalidate]

/-! ## Claims about the deploy pipeline (C1, C4, C10) -/

/-- C1 is false on the code: `deploy` against the bucket-less Local
configuration does not fail before doing any work — it performs the entire
build first (the trace contains a filesystem write and the manifest save)
and only then dies at the first upload's bucket check. -/
theorem C1_counterexample :
    (deploy wOk cfgLocal ctxLocal []).snd = Except.error Panic.envError ∧
    Event.fsWrite ["site", "a.html"] ∈ (deploy wOk cfgLocal ctxLocal []).fst ∧
    Event.saveManifest "local.yaml" ∈ (deploy wOk cfgLocal ctxLocal []).fst := by
  decide

/-- C1 (amended): deploying to an environment with no bucket (and, like
Local, no distribution) does fail fatally with no S3 upload and no CDN
invalidation issued — but only after the full build has run: the deploy
trace equals the build trace (filesystem mutations, fetches and the manifest
save included). -/
theorem C1_deploy_builds_before_failing (w : World) (cfg : SiteConfig)
    (ctx : Ctx) (pages : List ExternalPage)
    (hb : cfg.s3_bucket ctx.env = none)
    (hd : cfg.cloudfront_distro ctx.env = none) :
    aborted (deploy w cfg ctx pages).snd = true ∧
    (deploy w cfg ctx pages).fst = (build w ctx pages).fst ∧
    (deploy w cfg ctx pages).fst.filter (fun e => isPut e) = [] ∧
    (deploy w cfg ctx pages).fst.filter (fun e => isInvalidate e) = [] := by
  have hmain : aborted (deploy w cfg ctx pages).snd = true ∧
      (deploy w cfg ctx pages).fst = (build w ctx pages).fst := by
    unfold deploy
    rcases hbr : (build w ctx pages).snd with p | files
    · rw [tbind_snd_err hbr, tbind_fst_err hbr]
      exact ⟨rfl, rfl⟩
    · rw [tbind_snd_ok hbr, tbind_fst_ok hbr]
      simp only [uploadAll_none_eq w cfg ctx.env hb]
      cases files with
      | nil =>
        simp only [tbind_ok]
        rcases hg : w.gitHash with _ | hash
        · simp [hg, tfail, aborted]
        · simp [hg, hd, tfail, aborted]
      | cons kv rest =>
        simp only [tbind_err]
        simp [aborted]
  refine ⟨hmain.1, hmain.2, ?_, ?_⟩
  · rw [hmain.2]
    exact build_no_put w ctx pages
  · rw [hmain.2]
    exact build_no_invalidate w ctx pages

/-- Witness for the amended C1 at the concrete Local configuration. -/
theorem C1_deploy_builds_before_failing_witness :
    aborted (deploy wOk cfgLocal ctxLocal []).snd = true ∧
    (deploy wOk cfgLocal ctxLocal []).fst = (build wOk ctxLocal []).fst ∧
    (deploy wOk cfgLocal ctxLocal []).fst.filter (fun e => isPut e) = [] ∧
    (deploy wOk cfgLocal ctxLocal []).fst.filter
      (fun e => isInvalidate e) = [] :=
  C1_deploy_builds_before_failing wOk cfgLocal ctxLocal [] rfl rfl

/-- C4: if any individual upload of a deploy fails, the deploy aborts: the
CloudFront invalidation is never issued, and the `put_object` calls made are
exactly the key-ordered prefix that stops at the first failing entry
(`uploadsAttempted`). -/
theorem C4_upload_failure_aborts (w : World) (cfg : SiteConfig) (ctx : Ctx)
    (pages : List ExternalPage) (b : String) (fs : Files)
    (hb : cfg.s3_bucket ctx.env = some b)
    (hbuild : (build w ctx pages).snd = Except.ok fs)
    (hfail : ∃ kv ∈ fs, w.uploadOk (pathToString kv.snd.destination) = false) :
    aborted (deploy w cfg ctx pages).snd = true ∧
    (deploy w cfg ctx pages).fst.filter (fun e => isInvalidate e) = [] ∧
    (deploy w cfg ctx pages).fst.filter (fun e => isPut e) =
      uploadsAttempted w b fs := by
  obtain ⟨p, herr⟩ := uploadAll_err_some w cfg ctx.env b hb fs hfail
  have hfst : (deploy w cfg ctx pages).fst =
      (build w ctx pages).fst ++ uploadsAttempted w b fs := by
    unfold deploy
    rw [tbind_fst_ok hbuild]
    simp only [tbind_fst_err herr]
    rw [uploadAll_fst_some w cfg ctx.env b hb fs]
  have hsnd : aborted (deploy w cfg ctx pages).snd = true := by
    unfold deploy
    rw [tbind_snd_ok hbuild]
    simp only [tbind_snd_err herr]
    rfl
  refine ⟨hsnd, ?_, ?_⟩
  · rw [hfst, List.filter_append, build_no_invalidate w ctx pages,
      uploadsAttempted_filter_invalidate w b fs]
    rfl
  · rw [hfst, List.filter_append, build_no_put w ctx pages,
      uploadsAttempted_filter_put w b fs]
    rfl

/-- Witness for C4: with every upload failing, the concrete deploy aborts,
issues no invalidation, and its `put_object` calls stop at the first entry. -/
theorem C4_upload_failure_aborts_witness :
    aborted (deploy wUploadFail cfgFull ctxLocal []).snd = true ∧
    (deploy wUploadFail cfgFull ctxLocal []).fst.filter
      (fun e => isInvalidate e) = [] ∧
    (deploy wUploadFail cfgFull ctxLocal []).fst.filter (fun e => isPut e) =
      uploadsAttempted wUploadFail "bucket"
        [("content/a.md", ⟨"content/a.md", 5, ["site", "a.html"], ["a.html"]⟩),
         ("content/img/logo.png", ⟨"content/img/logo.png", 5,
           ["site", "img", "logo.png"], ["img", "logo.png"]⟩)] := by
  exact C4_upload_failure_aborts wUploadFail cfgFull ctxLocal [] "bucket"
    [("content/a.md", ⟨"content/a.md", 5, ["site", "a.html"], ["a.html"]⟩),
     ("content/img/logo.png", ⟨"content/img/logo.png", 5,
       ["site", "img", "logo.png"], ["img", "logo.png"]⟩)]
    rfl (by decide)
    ⟨("content/a.md", ⟨"content/a.md", 5, ["site", "a.html"], ["a.html"]⟩),
      by decide, rfl⟩

/-- C10: deploying to an environment with a bucket but no CloudFront
distribution fails fatally with the distribution `unwrap` — and that failure
happens only at the invalidation step: the build has completed and the trace
contains one `put_object` per manifest entry, with no invalidation call
issued. -/
theorem C10_missing_distro_fails_at_invalidation (w : World)
    (cfg : SiteConfig) (ctx : Ctx) (pages : List ExternalPage) (b : String)
    (fs : Files) (hash : String)
    (hb : cfg.s3_bucket ctx.env = some b)
    (hd : cfg.cloudfront_distro ctx.env = none)
    (hg : w.gitHash = some hash)
    (hbuild : (build w ctx pages).snd = Except.ok fs)
    (hok : ∀ kv ∈ fs, w.bodyOk kv.snd.built_filepath = true ∧
      w.uploadOk (pathToString kv.snd.destination) = true) :
    (deploy w cfg ctx pages).snd = Except.error Panic.distroUnwrapFailed ∧
    (deploy w cfg ctx pages).fst =
      (build w ctx pages).fst ++
        fs.map (fun kv => Event.s3Put b (pathToString kv.snd.destination)
          (w.mime kv.snd.built_filepath)) ∧
    (deploy w cfg ctx pages).fst.filter (fun e => isInvalidate e) = [] := by
  have hua := uploadAll_ok_some w cfg ctx.env b hb fs hok
  have huas : (uploadAll w cfg ctx.env fs).snd = Except.ok () := by rw [hua]
  have hsnd : (deploy w cfg ctx pages).snd =
      Except.error Panic.distroUnwrapFailed := by
    unfold deploy
    rw [tbind_snd_ok hbuild]
    simp only [tbind_snd_ok huas, hg, hd, tfail]
  have hfst : (deploy w cfg ctx pages).fst =
      (build w ctx pages).fst ++
        fs.map (fun kv => Event.s3Put b (pathToString kv.snd.destination)
          (w.mime kv.snd.built_filepath)) := by
    unfold deploy
    rw [tbind_fst_ok hbuild]
    simp only [tbind_fst_ok huas, hua, hg, hd, tfail]
    simp
  refine ⟨hsnd, hfst, ?_⟩
  rw [hfst, List.filter_append, build_no_invalidate w ctx pages]
  have hmap : (fs.map (fun kv => Event.s3Put b
      (pathToString kv.snd.destination)
      (w.mime kv.snd.built_filepath))).filter
        (fun e => isInvalidate e) = [] := by
    refine List.filter_eq_nil_iff.2 ?_
    intro e he
    obtain ⟨kv, _, hkv⟩ := List.mem_map.1 he
    rw [← hkv]
    simp [isInvalidate]
  rw [hmap]
  rfl

/-- Witness for C10 at a concrete bucket-only configuration. -/
theorem C10_missing_distro_fails_at_invalidation_witness :
    (deploy wOk cfgNoDistro ctxLocal []).snd =
      Except.error Panic.distroUnwrapFailed ∧
    (deploy wOk cfgNoDistro ctxLocal []).fst =
      (build wOk ctxLocal []).fst ++
        [("content/a.md",
            (⟨"content/a.md", 5, ["site", "a.html"], ["a.html"]⟩ :
              ManifestFile)),
         ("content/img/logo.png", ⟨"content/img/logo.png", 5,
           ["site", "img", "logo.png"], ["img", "logo.png"]⟩)].map
          (fun kv => Event.s3Put "bucket" (pathToString kv.snd.destination)
            (wOk.mime kv.snd.built_filepath)) ∧
    (deploy wOk cfgNoDistro ctxLocal []).fst.filter
      (fun e => isInvalidate e) = [] := by
  exact C10_missing_distro_fails_at_invalidation wOk cfgNoDistro ctxLocal []
    "bucket"
    [("content/a.md", ⟨"content/a.md", 5, ["site", "a.html"], ["a.html"]⟩),
     ("content/img/logo.png", ⟨"content/img/logo.png", 5,
       ["site", "img", "logo.png"], ["img", "logo.png"]⟩)]
    "abc" rfl rfl rfl (by decide) (by decide)
